import Mathlib

/-!
Verification of the OAuth temporary exchange-token store
(`src/services/auth/temp-token.ts`), the OAuth exchange route
(`src/routes/auth-routes.ts`), and the email-verification gate
(`src/middlewares/email-verification-middleware.ts`) of the
backend-locafy repository.

The TypeScript code is shallowly embedded: JavaScript values become the
inductive `JsVal`, the two module-level `Map`s become association lists
with JS `Map` semantics, `Date.now()` becomes an explicit `now : Nat`
parameter (milliseconds), and the `setTimeout` purge callbacks become
explicit `Timer` records that a scheduler may fire.
-/

namespace Locafy

/-- A JavaScript value, as far as the code under verification inspects one:
the token payloads have type `any`, and the route only tests truthiness. -/
inductive JsVal where
  | vNull
  | vUndefined
  | vBool (b : Bool)
  | vNum (n : Int)
  | vStr (s : String)
  | vObj (fields : List (String × JsVal))

/-- JavaScript truthiness: `null`, `undefined`, `false`, `0` and the empty
string are falsy; every object is truthy. -/
def jsTruthy : JsVal → Bool
  | .vNull => false
  | .vUndefined => false
  | .vBool b => b
  | .vNum n => n != 0
  | .vStr s => s != ""
  | .vObj _ => true

/-- `Map.prototype.get`: the value stored at key `k`, if any (keys of a
JS `Map` are unique, so the first match is the entry). -/
def mapGet (m : List (String × α)) (k : String) : Option α :=
  match m with
  | [] => none
  | (k1, v) :: rest => if k1 == k then some v else mapGet rest k

/-- `Map.prototype.set`: overwrite the entry for `k` in place if present,
otherwise append a new entry. -/
def mapSet (m : List (String × α)) (k : String) (v : α) : List (String × α) :=
  match m with
  | [] => [(k, v)]
  | (k1, v1) :: rest =>
    if k1 == k then (k, v) :: rest else (k1, v1) :: mapSet rest k v

/-- `Map.prototype.delete`: remove the entry for `k`. Keys of a JS `Map`
are unique, so removing every occurrence is the same operation. -/
def mapDelete (m : List (String × α)) (k : String) : List (String × α) :=
  match m with
  | [] => []
  | (k1, v1) :: rest =>
    if k1 == k then mapDelete rest k else (k1, v1) :: mapDelete rest k

/-- `Map.prototype.size`. -/
def mapSize (m : List (String × α)) : Nat := m.length

/-- Lowercase hexadecimal digit, as used by `Buffer.toString('hex')`. -/
def hexDigitLower (n : Nat) : Char :=
  if n < 10 then Char.ofNat (48 + n) else Char.ofNat (87 + n)

/-- `Buffer.toString('hex')`: each byte becomes two lowercase hex digits. -/
def bytesToHex (bs : List Nat) : String :=
  ⟨bs.flatMap (fun b => [hexDigitLower (b / 16), hexDigitLower (b % 16)])⟩

/-- `CONSUMED_TOKEN_RETENTION = 60 * 1000` (temp-token.ts line 7). -/
def CONSUMED_TOKEN_RETENTION : Nat := 60 * 1000

/-- `TOKEN_EXPIRY = 15 * 60 * 1000` (temp-token.ts line 9). -/
def TOKEN_EXPIRY : Nat := 15 * 60 * 1000

/-- Entry of `tempTokenStore`: `{ data: any; expiresAt: number }`. -/
structure StoredEntry where
  data : JsVal
  expiresAt : Nat

/-- Entry of `consumedTokens`: `{ data: any; consumedAt: number }`. -/
structure ConsumedEntry where
  data : JsVal
  consumedAt : Nat

/-- A pending `setTimeout` callback of temp-token.ts: the purge of a
pending token scheduled at issuance (line 28) or the purge of a consumed
token scheduled at redemption (line 125). `fireAt` is the earliest time
the runtime may run the callback. -/
inductive Timer where
  | purgePending (token : String) (fireAt : Nat)
  | purgeConsumed (token : String) (fireAt : Nat)
deriving DecidableEq, BEq

/-- The module-level mutable state of temp-token.ts: the two `Map`s and
the outstanding `setTimeout` callbacks. -/
structure TokenState where
  tempTokenStore : List (String × StoredEntry)
  consumedTokens : List (String × ConsumedEntry)
  timers : List Timer

/-- The state at module load: both maps empty, no timers. -/
def initialTokenState : TokenState := ⟨[], [], []⟩

/-- `generateTempToken(data)` (temp-token.ts lines 11-33). The randomness
source `crypto.randomBytes(32)` is passed in as the byte list `rb`, and
`Date.now()` as `now`; the function stores `{data, expiresAt}` under the
hex token and schedules a purge after `TOKEN_EXPIRY`. Returns the token
and the updated module state. -/
def generateTempToken (data : JsVal) (now : Nat) (rb : List Nat)
    (s : TokenState) : String × TokenState :=
  let token := bytesToHex rb
  let expiresAt := now + TOKEN_EXPIRY
  (token,
    { s with
      tempTokenStore := mapSet s.tempTokenStore token ⟨data, expiresAt⟩,
      timers := s.timers ++ [Timer.purgePending token (now + TOKEN_EXPIRY)] })

/-- `exchangeTempToken(token)` (temp-token.ts lines 35-133), with
`Date.now()` passed as `now`. Returns the JS return value (`vNull` for the
`return null` paths) and the updated module state. -/
def exchangeTempToken (token : String) (now : Nat) (s : TokenState) :
    JsVal × TokenState :=
  match mapGet s.tempTokenStore token with
  | none =>
    match mapGet s.consumedTokens token with
    | some consumed =>
      if now - consumed.consumedAt < CONSUMED_TOKEN_RETENTION then
        (consumed.data, s)
      else
        (.vNull, { s with consumedTokens := mapDelete s.consumedTokens token })
    | none => (.vNull, s)
  | some stored =>
    if stored.expiresAt < now then
      (.vNull, { s with tempTokenStore := mapDelete s.tempTokenStore token })
    else
      (stored.data,
        { tempTokenStore := mapDelete s.tempTokenStore token,
          consumedTokens :=
            mapSet s.consumedTokens token ⟨stored.data, now⟩,
          timers := s.timers ++
            [Timer.purgeConsumed token (now + CONSUMED_TOKEN_RETENTION)] })

/-- `getTempTokenStoreSize()` (temp-token.ts lines 136-138). -/
def getTempTokenStoreSize (s : TokenState) : Nat :=
  mapSize s.tempTokenStore

/-- Running one scheduled `setTimeout` callback: each purge is an
idempotent `Map.delete` of the token it was scheduled for, after which the
timer handle is gone. -/
def fireTimer (t : Timer) (s : TokenState) : TokenState :=
  match t with
  | .purgePending tok _ =>
    { s with tempTokenStore := mapDelete s.tempTokenStore tok,
             timers := s.timers.erase t }
  | .purgeConsumed tok _ =>
    { s with consumedTokens := mapDelete s.consumedTokens tok,
             timers := s.timers.erase t }

/-- The states the temp-token module can reach, paired with the list of
tokens `generateTempToken` has returned so far: from the initial state,
any interleaving of issuances, exchanges and timer firings. -/
inductive ReachableStore : TokenState → List String → Prop where
  | init : ReachableStore initialTokenState []
  | gen (d : JsVal) (now : Nat) (rb : List Nat) (s : TokenState)
      (issued : List String) : ReachableStore s issued →
      ReachableStore (generateTempToken d now rb s).2 (bytesToHex rb :: issued)
  | exch (tok : String) (now : Nat) (s : TokenState)
      (issued : List String) : ReachableStore s issued →
      ReachableStore (exchangeTempToken tok now s).2 issued
  | fire (t : Timer) (s : TokenState) (issued : List String) :
      ReachableStore s issued → ReachableStore (fireTimer t s) issued

/-- Unreserved characters of `encodeURIComponent`: alphanumerics and
`- _ . ! ~ * ' ( )` pass through unescaped. -/
def isUnreservedURIChar (c : Char) : Bool :=
  (Char.ofNat 65 ≤ c && c ≤ Char.ofNat 90) ||
  (Char.ofNat 97 ≤ c && c ≤ Char.ofNat 122) ||
  (Char.ofNat 48 ≤ c && c ≤ Char.ofNat 57) ||
  c == Char.ofNat 45 || c == Char.ofNat 95 || c == Char.ofNat 46 ||
  c == Char.ofNat 33 || c == Char.ofNat 126 || c == Char.ofNat 42 ||
  c == Char.ofNat 39 || c == Char.ofNat 40 || c == Char.ofNat 41

/-- Uppercase hexadecimal digit, as produced by percent-escapes. -/
def hexDigitUpper (n : Nat) : Char :=
  if n < 10 then Char.ofNat (48 + n) else Char.ofNat (55 + n)

/-- The JS builtin `encodeURIComponent`: unreserved characters pass
through, every other character is replaced by the percent-escapes of its
UTF-8 bytes. -/
def encodeURIComponent (s : String) : String :=
  ⟨s.data.flatMap (fun c =>
    if isUnreservedURIChar c then [c]
    else (String.singleton c).toUTF8.toList.flatMap (fun b =>
      [Char.ofNat 37, hexDigitUpper (b.toNat / 16), hexDigitUpper (b.toNat % 16)]))⟩

/-- Value of a hexadecimal digit character, upper or lower case. -/
def hexVal (c : Char) : Option Nat :=
  if Char.ofNat 48 ≤ c && c ≤ Char.ofNat 57 then some (c.toNat - 48)
  else if Char.ofNat 97 ≤ c && c ≤ Char.ofNat 102 then some (c.toNat - 87)
  else if Char.ofNat 65 ≤ c && c ≤ Char.ofNat 70 then some (c.toNat - 55)
  else none

/-- Model of the JS builtin `decodeURIComponent`, accurate on the inputs
this development applies it to: a character other than `%` passes through
unchanged, `%XX` with `XX` an ASCII byte (below 0x80) decodes to that
character, and a malformed escape is a `URIError` (`none`). A well-formed
multi-byte UTF-8 escape sequence, which the real builtin would decode, is
conservatively mapped to `none` as well; no theorem below depends on that
case, since issued tokens contain no `%`. -/
def decodeURIChars : List Char → Option (List Char)
  | [] => some []
  | c :: rest =>
    if c = '%' then
      match rest with
      | c1 :: c2 :: rest2 =>
        match hexVal c1, hexVal c2 with
        | some h, some l =>
          if 16 * h + l < 128 then
            (decodeURIChars rest2).map (fun cs => Char.ofNat (16 * h + l) :: cs)
          else none
        | _, _ => none
      | _ => none
    else (decodeURIChars rest).map (fun cs => c :: cs)

/-- `decodeURIComponent` on strings; `none` is the thrown `URIError`. -/
def decodeURIComponent (s : String) : Option String :=
  (decodeURIChars s.data).map (fun cs => ⟨cs⟩)

/-- The defensive re-decoding step of the `/v1/oauth/exchange` handler
(auth-routes.ts lines 87-100): try `decodeURIComponent`; if it yields a
different string use the decoded form, if it throws or yields the same
string keep the code as received. -/
def routeDecodedCode (code : String) : String :=
  match decodeURIComponent code with
  | some testDecode => if testDecode != code then testDecode else code
  | none => code

/-- JSON envelope returned by the exchange endpoint: either the 200
success envelope `{code: 200, status: "success", data}` or an error
envelope `{code, status: "error", message}` sent with the HTTP status. -/
inductive ExchangeResponse where
  | success (data : JsVal)
  | error (httpStatus : Nat) (code : Nat) (message : String)

/-- The `/v1/oauth/exchange` handler (auth-routes.ts lines 64-136).
`code` is `req.query.code` when it is a string (`none` for a missing or
non-string value). Returns the response and the temp-token module state
after the call. -/
def oauthExchangeRoute (code : Option String) (now : Nat) (s : TokenState) :
    ExchangeResponse × TokenState :=
  match code with
  | none => (.error 400 400 "Missing or invalid code", s)
  | some c =>
    if c == "" then (.error 400 400 "Missing or invalid code", s)
    else
      let decodedCode := routeDecodedCode c
      let r := exchangeTempToken decodedCode now s
      if jsTruthy r.1 then (.success r.1, r.2)
      else if getTempTokenStoreSize r.2 == 0 then
        (.error 400 400 "Authentication code expired or invalid. The server may have restarted. Please try logging in again.", r.2)
      else
        (.error 400 400 "Invalid or expired code. Please try logging in again.", r.2)

/-- The user record as the email-verification middleware sees it:
`emailVerified` is the nullable `email_verified TIMESTAMP(3)` column,
`some t` when a verification timestamp is recorded. -/
structure GateUser where
  emailVerified : Option Nat

/-- Outcome of `userRepository.findById(userId)` inside the gate's
`try` block: a found record, an absent record, or a thrown error. -/
inductive LookupResult where
  | ok (user : Option GateUser)
  | err

/-- What the middleware does with the request: respond with a JSON error
envelope `{code, status: "error", message}`, or call `next()`. -/
inductive GateOutcome where
  | respond (httpStatus : Nat) (code : Nat) (message : String)
  | proceed
deriving DecidableEq, BEq

/-- `EmailVerificationMiddleware.execute`
(email-verification-middleware.ts lines 8-49). `userId` is
`req.user?.sub`: `none` when no user object is attached, `some s` for an
attached sub claim `s`. The source tests `if (!userId)`, JS falsiness,
so the empty string is rejected like an absent id. `lookup` is the
result of the repository call, only reached past that test. -/
def emailVerificationMiddleware (userId : Option String)
    (lookup : LookupResult) : GateOutcome :=
  match userId with
  | none => .respond 401 401 "Authentication required"
  | some uid =>
    if uid == "" then .respond 401 401 "Authentication required"
    else
      match lookup with
      | .err => .respond 500 500 "Failed to verify email status"
      | .ok none => .respond 404 404 "User not found"
      | .ok (some user) =>
        if user.emailVerified.isSome then .proceed
        else .respond 403 403 "Email verification required. Please verify your email to participate in discussions and favorites."

/-- The case analysis exactly as the specification states it, written
from the spec's words to be compared with the middleware embedded from
the source: no principal — no user id, where an empty user id string
carries no principal either — → 401 before any user state is consulted;
lookup failure → 500; record missing → 404; record unverified → 403 with
the fixed message; verified → proceed. -/
def gateSpecCaseAnalysis (userId : Option String)
    (lookup : LookupResult) : GateOutcome :=
  if userId.isNone || userId == some "" then
    .respond 401 401 "Authentication required"
  else
    match lookup with
    | .err => .respond 500 500 "Failed to verify email status"
    | .ok none => .respond 404 404 "User not found"
    | .ok (some user) =>
      if user.emailVerified.isNone then
        .respond 403 403 "Email verification required. Please verify your email to participate in discussions and favorites."
      else .proceed

theorem mapGet_mapSet_self (m : List (String × α)) (k : String) (v : α) :
    mapGet (mapSet m k v) k = some v := by
  induction m with
  | nil => simp [mapGet, mapSet]
  | cons a m ih =>
    obtain ⟨k1, v1⟩ := a
    by_cases h : k1 = k
    · simp [mapGet, mapSet, h]
    · simp [mapGet, mapSet, h, ih]

theorem mapGet_mapSet_ne (m : List (String × α)) (k j : String) (v : α)
    (hkj : k ≠ j) : mapGet (mapSet m k v) j = mapGet m j := by
  induction m with
  | nil => simp [mapGet, mapSet, hkj]
  | cons a m ih =>
    obtain ⟨k1, v1⟩ := a
    by_cases h : k1 = k
    · have h2 : ¬ k1 = j := by rw [h]; exact hkj
      simp [mapGet, mapSet, h, h2, hkj]
    · simp [mapGet, mapSet, h, ih]

theorem mapGet_mapDelete_self (m : List (String × α)) (k : String) :
    mapGet (mapDelete m k) k = none := by
  induction m with
  | nil => simp [mapGet, mapDelete]
  | cons a m ih =>
    obtain ⟨k1, v1⟩ := a
    by_cases h : k1 = k
    · simp [mapDelete, h, ih]
    · simp [mapGet, mapDelete, h, ih]

theorem mapGet_mapDelete_ne (m : List (String × α)) (k j : String)
    (hkj : k ≠ j) : mapGet (mapDelete m k) j = mapGet m j := by
  induction m with
  | nil => simp [mapDelete]
  | cons a m ih =>
    obtain ⟨k1, v1⟩ := a
    by_cases h : k1 = k
    · have h2 : ¬ k1 = j := by rw [h]; exact hkj
      simp [mapGet, mapDelete, h, h2, hkj, ih]
    · simp [mapGet, mapDelete, h, ih]

theorem mapGet_isSome_of_mapSet (m : List (String × α)) (k j : String)
    (v : α) (h : (mapGet (mapSet m k v) j).isSome = true) :
    j = k ∨ (mapGet m j).isSome = true := by
  by_cases hjk : j = k
  · exact Or.inl hjk
  · right
    rwa [mapGet_mapSet_ne m k j v (fun e => hjk e.symm)] at h

theorem mapGet_isSome_of_mapDelete (m : List (String × α)) (k j : String)
    (h : (mapGet (mapDelete m k) j).isSome = true) :
    (mapGet m j).isSome = true := by
  by_cases hjk : j = k
  · subst hjk
    rw [mapGet_mapDelete_self] at h
    simp at h
  · rwa [mapGet_mapDelete_ne m k j (fun e => hjk e.symm)] at h

theorem reachableStore_keys_issued (s : TokenState) (issued : List String)
    (h : ReachableStore s issued) :
    (∀ k, (mapGet s.tempTokenStore k).isSome = true → k ∈ issued) ∧
    (∀ k, (mapGet s.consumedTokens k).isSome = true → k ∈ issued) := by
  induction h with
  | init =>
    constructor <;> intro k hk <;> simp [initialTokenState, mapGet] at hk
  | gen d now rb s issued hr ih =>
    constructor
    · intro k hk
      simp only [generateTempToken] at hk
      rcases mapGet_isSome_of_mapSet _ _ _ _ hk with rfl | hs
      · exact List.mem_cons_self _ _
      · exact List.mem_cons_of_mem _ (ih.1 k hs)
    · intro k hk
      simp only [generateTempToken] at hk
      exact List.mem_cons_of_mem _ (ih.2 k hk)
  | exch tok now s issued hr ih =>
    cases hget : mapGet s.tempTokenStore tok with
    | none =>
      cases hcons : mapGet s.consumedTokens tok with
      | none =>
        constructor <;> intro k hk <;>
          simp only [exchangeTempToken, hget, hcons] at hk
        · exact ih.1 k hk
        · exact ih.2 k hk
      | some c =>
        by_cases hlt : now - c.consumedAt < CONSUMED_TOKEN_RETENTION
        · constructor <;> intro k hk <;>
            simp [exchangeTempToken, hget, hcons, hlt] at hk
          · exact ih.1 k hk
          · exact ih.2 k hk
        · constructor <;> intro k hk <;>
            simp [exchangeTempToken, hget, hcons, hlt] at hk
          · exact ih.1 k hk
          · exact ih.2 k (mapGet_isSome_of_mapDelete _ _ _ hk)
    | some stored =>
      by_cases hexp : stored.expiresAt < now
      · constructor <;> intro k hk <;>
          simp [exchangeTempToken, hget, hexp] at hk
        · exact ih.1 k (mapGet_isSome_of_mapDelete _ _ _ hk)
        · exact ih.2 k hk
      · constructor <;> intro k hk <;>
          simp [exchangeTempToken, hget, hexp] at hk
        · exact ih.1 k (mapGet_isSome_of_mapDelete _ _ _ hk)
        · rcases mapGet_isSome_of_mapSet _ _ _ _ hk with rfl | hs
          · exact ih.1 k (by simp [hget])
          · exact ih.2 k hs
  | fire t s issued hr ih =>
    cases t with
    | purgePending tok fa =>
      constructor <;> intro k hk <;> simp only [fireTimer] at hk
      · exact ih.1 k (mapGet_isSome_of_mapDelete _ _ _ hk)
      · exact ih.2 k hk
    | purgeConsumed tok fa =>
      constructor <;> intro k hk <;> simp only [fireTimer] at hk
      · exact ih.1 k hk
      · exact ih.2 k (mapGet_isSome_of_mapDelete _ _ _ hk)

/-- A fresh, unexpired pending token redeems to its payload, moving the
entry from `tempTokenStore` to `consumedTokens` with `consumedAt = now`
and scheduling the cache purge. -/
theorem exchange_fresh_eq (s : TokenState) (tok : String) (P : JsVal)
    (e now : Nat) (hget : mapGet s.tempTokenStore tok = some ⟨P, e⟩)
    (hnow : now ≤ e) :
    exchangeTempToken tok now s =
      (P, ⟨mapDelete s.tempTokenStore tok,
           mapSet s.consumedTokens tok ⟨P, now⟩,
           s.timers ++
             [Timer.purgeConsumed tok (now + CONSUMED_TOKEN_RETENTION)]⟩) := by
  simp [exchangeTempToken, hget, Nat.not_lt.mpr hnow]

/-- C1: for a token `tok` pending with payload `P`, redeemed at a time not
later than its `expiresAt`, the exchange returns `P`, removes `tok` from
the pending store, and records it in the consumed cache with
`consumedAt` equal to the current time. -/
theorem claim1_first_redemption (s : TokenState) (tok : String) (P : JsVal)
    (e now : Nat) (hget : mapGet s.tempTokenStore tok = some ⟨P, e⟩)
    (hnow : now ≤ e) :
    (exchangeTempToken tok now s).1 = P ∧
    mapGet (exchangeTempToken tok now s).2.tempTokenStore tok = none ∧
    mapGet (exchangeTempToken tok now s).2.consumedTokens tok
      = some ⟨P, now⟩ := by
  rw [exchange_fresh_eq s tok P e now hget hnow]
  exact ⟨rfl, mapGet_mapDelete_self _ _, mapGet_mapSet_self _ _ _⟩

theorem claim1_first_redemption_witness :
    mapGet (⟨[("t", ⟨JsVal.vStr "P", 100⟩)], [], []⟩ :
        TokenState).tempTokenStore "t" = some ⟨JsVal.vStr "P", 100⟩ ∧
    50 ≤ 100 ∧
    ((exchangeTempToken "t" 50
        ⟨[("t", ⟨JsVal.vStr "P", 100⟩)], [], []⟩).1 = JsVal.vStr "P" ∧
      mapGet (exchangeTempToken "t" 50
        ⟨[("t", ⟨JsVal.vStr "P", 100⟩)], [], []⟩).2.tempTokenStore "t"
        = none ∧
      mapGet (exchangeTempToken "t" 50
        ⟨[("t", ⟨JsVal.vStr "P", 100⟩)], [], []⟩).2.consumedTokens "t"
        = some ⟨JsVal.vStr "P", 50⟩) :=
  ⟨by simp [mapGet], by decide,
    claim1_first_redemption _ "t" (JsVal.vStr "P") 100 50
      (by simp [mapGet]) (by decide)⟩

/-- C2: a token redeemed fresh at `now1` and again at `now2`, strictly
less than the 60-second grace period after `now1`, yields the same
payload both times; in particular back-to-back duplicate redemptions both
receive the payload. -/
theorem claim2_idempotent_duplicate (s : TokenState) (tok : String)
    (P : JsVal) (e now1 now2 : Nat)
    (hget : mapGet s.tempTokenStore tok = some ⟨P, e⟩)
    (h1 : now1 ≤ e) (h2 : now2 - now1 < CONSUMED_TOKEN_RETENTION) :
    (exchangeTempToken tok now1 s).1 = P ∧
    (exchangeTempToken tok now2 (exchangeTempToken tok now1 s).2).1
      = P := by
  rw [exchange_fresh_eq s tok P e now1 hget h1]
  refine ⟨rfl, ?_⟩
  simp [exchangeTempToken, mapGet_mapDelete_self, mapGet_mapSet_self, h2]

theorem claim2_idempotent_duplicate_witness :
    mapGet (⟨[("t", ⟨JsVal.vStr "P", 100⟩)], [], []⟩ :
        TokenState).tempTokenStore "t" = some ⟨JsVal.vStr "P", 100⟩ ∧
    (50 : Nat) ≤ 100 ∧ 60000 - 50 < CONSUMED_TOKEN_RETENTION ∧
    ((exchangeTempToken "t" 50
        ⟨[("t", ⟨JsVal.vStr "P", 100⟩)], [], []⟩).1 = JsVal.vStr "P" ∧
      (exchangeTempToken "t" 60000
        (exchangeTempToken "t" 50
          ⟨[("t", ⟨JsVal.vStr "P", 100⟩)], [], []⟩).2).1
        = JsVal.vStr "P") :=
  ⟨by simp [mapGet], by decide, by decide,
    claim2_idempotent_duplicate _ "t" (JsVal.vStr "P") 100 50 60000
      (by simp [mapGet]) (by decide) (by decide)⟩

/-- C3: a pending token that was never redeemed (it is not in the
consumed cache), exchanged strictly after its `expiresAt`, yields
NOT_FOUND (`null`), is removed from the pending store, and afterwards is
in neither map, so every further exchange of it also yields NOT_FOUND and
leaves the state unchanged. -/
theorem claim3_expiry_without_redemption (s : TokenState) (tok : String)
    (P : JsVal) (e now : Nat)
    (hget : mapGet s.tempTokenStore tok = some ⟨P, e⟩)
    (hcons : mapGet s.consumedTokens tok = none)
    (hnow : e < now) :
    exchangeTempToken tok now s
      = (JsVal.vNull,
          { s with tempTokenStore := mapDelete s.tempTokenStore tok }) ∧
    mapGet (exchangeTempToken tok now s).2.tempTokenStore tok = none ∧
    mapGet (exchangeTempToken tok now s).2.consumedTokens tok = none ∧
    ∀ later, exchangeTempToken tok later (exchangeTempToken tok now s).2
      = (JsVal.vNull, (exchangeTempToken tok now s).2) := by
  have heq : exchangeTempToken tok now s
      = (JsVal.vNull,
          { s with tempTokenStore := mapDelete s.tempTokenStore tok }) := by
    simp [exchangeTempToken, hget, hnow]
  refine ⟨heq, ?_, ?_, ?_⟩
  · rw [heq]
    exact mapGet_mapDelete_self _ _
  · rw [heq]
    simpa using hcons
  · intro later
    rw [heq]
    simp [exchangeTempToken, mapGet_mapDelete_self, hcons]

theorem claim3_expiry_without_redemption_witness :
    mapGet (⟨[("t", ⟨JsVal.vStr "P", 100⟩)], [], []⟩ :
        TokenState).tempTokenStore "t" = some ⟨JsVal.vStr "P", 100⟩ ∧
    mapGet (⟨[("t", ⟨JsVal.vStr "P", 100⟩)], [], []⟩ :
        TokenState).consumedTokens "t" = none ∧
    (100 : Nat) < 101 ∧
    (exchangeTempToken "t" 101
        ⟨[("t", ⟨JsVal.vStr "P", 100⟩)], [], []⟩).1 = JsVal.vNull :=
  ⟨by simp [mapGet], by simp [mapGet], by decide,
    by rw [(claim3_expiry_without_redemption _ "t" (JsVal.vStr "P") 100 101
      (by simp [mapGet]) (by simp [mapGet]) (by decide)).1]⟩

/-- C4: a consumed token whose grace period has fully elapsed
(`now ≥ consumedAt + 60 s`) and which is no longer pending yields
NOT_FOUND (`null`) and is evicted from the consumed cache. -/
theorem claim4_post_grace_not_found (s : TokenState) (tok : String)
    (P : JsVal) (c now : Nat)
    (hpend : mapGet s.tempTokenStore tok = none)
    (hcons : mapGet s.consumedTokens tok = some ⟨P, c⟩)
    (hnow : c + CONSUMED_TOKEN_RETENTION ≤ now) :
    exchangeTempToken tok now s
      = (JsVal.vNull,
          { s with consumedTokens := mapDelete s.consumedTokens tok }) ∧
    mapGet (exchangeTempToken tok now s).2.consumedTokens tok = none := by
  have hge : ¬ (now - c < CONSUMED_TOKEN_RETENTION) := by
    simp only [CONSUMED_TOKEN_RETENTION] at *
    omega
  constructor
  · simp [exchangeTempToken, hpend, hcons, hge]
  · simp [exchangeTempToken, hpend, hcons, hge, mapGet_mapDelete_self]

theorem claim4_post_grace_not_found_witness :
    mapGet (⟨[], [("t", ⟨JsVal.vStr "P", 40⟩)], []⟩ :
        TokenState).tempTokenStore "t" = none ∧
    mapGet (⟨[], [("t", ⟨JsVal.vStr "P", 40⟩)], []⟩ :
        TokenState).consumedTokens "t" = some ⟨JsVal.vStr "P", 40⟩ ∧
    40 + CONSUMED_TOKEN_RETENTION ≤ 60040 ∧
    (exchangeTempToken "t" 60040
      ⟨[], [("t", ⟨JsVal.vStr "P", 40⟩)], []⟩).1 = JsVal.vNull :=
  ⟨by simp [mapGet], by simp [mapGet], by decide,
    by rw [(claim4_post_grace_not_found _ "t" (JsVal.vStr "P") 40 60040
      (by simp [mapGet]) (by simp [mapGet]) (by decide)).1]⟩

/-- C6: in every reachable store state, a token string that
`generateTempToken` never returned exchanges to NOT_FOUND (`null`) with
the state unchanged; lookup is byte-exact string equality, so no string
other than an issued token can redeem a payload. -/
theorem claim6_unknown_token_not_found (s : TokenState)
    (issued : List String) (tok : String) (now : Nat)
    (hr : ReachableStore s issued) (hnotissued : tok ∉ issued) :
    exchangeTempToken tok now s = (JsVal.vNull, s) := by
  have hinv := reachableStore_keys_issued s issued hr
  have hp : mapGet s.tempTokenStore tok = none := by
    cases hh : mapGet s.tempTokenStore tok with
    | none => rfl
    | some x => exact absurd (hinv.1 tok (by simp [hh])) hnotissued
  have hc : mapGet s.consumedTokens tok = none := by
    cases hh : mapGet s.consumedTokens tok with
    | none => rfl
    | some x => exact absurd (hinv.2 tok (by simp [hh])) hnotissued
  simp [exchangeTempToken, hp, hc]

theorem claim6_unknown_token_not_found_witness :
    ReachableStore (generateTempToken (JsVal.vStr "P") 0
        (List.replicate 32 171) initialTokenState).2
      [bytesToHex (List.replicate 32 171)] ∧
    "cafe" ∉ [bytesToHex (List.replicate 32 171)] ∧
    exchangeTempToken "cafe" 7
        (generateTempToken (JsVal.vStr "P") 0
          (List.replicate 32 171) initialTokenState).2
      = (JsVal.vNull,
          (generateTempToken (JsVal.vStr "P") 0
            (List.replicate 32 171) initialTokenState).2) :=
  ⟨ReachableStore.gen _ _ _ _ _ ReachableStore.init,
    by decide,
    claim6_unknown_token_not_found _ _ "cafe" 7
      (ReachableStore.gen _ _ _ _ _ ReachableStore.init) (by decide)⟩

theorem hexDigitLower_mem_alphabet (n : Nat) (h : n < 16) :
    hexDigitLower n ∈ ("0123456789abcdef").data := by
  interval_cases n <;> decide

theorem hexDigitLower_unreserved (n : Nat) (h : n < 16) :
    isUnreservedURIChar (hexDigitLower n) = true := by
  interval_cases n <;> decide

theorem hexDigitLower_ne_percent (n : Nat) (h : n < 16) :
    hexDigitLower n ≠ '%' := by
  interval_cases n <;> decide

theorem bytesToHex_data_eq (rb : List Nat) :
    (bytesToHex rb).data
      = rb.flatMap (fun b => [hexDigitLower (b / 16), hexDigitLower (b % 16)]) :=
  rfl

theorem bytesToHex_length (rb : List Nat) :
    (bytesToHex rb).length = 2 * rb.length := by
  show (bytesToHex rb).data.length = 2 * rb.length
  rw [bytesToHex_data_eq]
  induction rb with
  | nil => rfl
  | cons b rest ih =>
    simp only [List.flatMap_cons, List.length_append, List.length_cons,
      List.length_nil, ih]
    omega

theorem bytesToHex_mem_hex (rb : List Nat) (hb : ∀ b ∈ rb, b < 256) :
    ∀ c ∈ (bytesToHex rb).data, c ∈ ("0123456789abcdef").data := by
  intro c hc
  rw [bytesToHex_data_eq] at hc
  obtain ⟨b, hbmem, hcmem⟩ := List.mem_flatMap.mp hc
  have hb256 := hb b hbmem
  have hdiv : b / 16 < 16 := by omega
  have hmod : b % 16 < 16 := Nat.mod_lt _ (by omega)
  simp only [List.mem_cons, List.not_mem_nil, or_false] at hcmem
  rcases hcmem with rfl | rfl
  · exact hexDigitLower_mem_alphabet _ hdiv
  · exact hexDigitLower_mem_alphabet _ hmod

theorem flatMap_encode_unreserved (l : List Char)
    (h : ∀ c ∈ l, isUnreservedURIChar c = true) :
    (l.flatMap (fun c =>
      if isUnreservedURIChar c then [c]
      else (String.singleton c).toUTF8.toList.flatMap (fun b =>
        [Char.ofNat 37, hexDigitUpper (b.toNat / 16),
          hexDigitUpper (b.toNat % 16)]))) = l := by
  induction l with
  | nil => rfl
  | cons c rest ih =>
    have hc := h c (List.mem_cons_self _ _)
    simp only [List.flatMap_cons, hc, if_true, List.singleton_append,
      List.cons.injEq, true_and]
    exact ih (fun x hx => h x (List.mem_cons_of_mem _ hx))

theorem encodeURIComponent_of_unreserved (s : String)
    (h : ∀ c ∈ s.data, isUnreservedURIChar c = true) :
    encodeURIComponent s = s := by
  cases s with
  | mk data =>
    show String.mk (data.flatMap _) = String.mk data
    rw [flatMap_encode_unreserved data h]

theorem decodeURIChars_cons_ne_percent (c : Char) (rest : List Char)
    (hc : ¬ (c = '%')) :
    decodeURIChars (c :: rest)
      = (decodeURIChars rest).map (fun cs => c :: cs) := by
  rw [decodeURIChars.eq_def]
  simp [hc]

theorem decodeURIChars_no_percent (l : List Char)
    (h : ∀ c ∈ l, c ≠ '%') : decodeURIChars l = some l := by
  induction l with
  | nil => rfl
  | cons c rest ih =>
    have hc : ¬ (c = '%') := h c (List.mem_cons_self _ _)
    rw [decodeURIChars_cons_ne_percent c rest hc,
      ih (fun x hx => h x (List.mem_cons_of_mem _ hx))]
    rfl

theorem decodeURIComponent_no_percent (s : String)
    (h : ∀ c ∈ s.data, c ≠ '%') : decodeURIComponent s = some s := by
  cases s with
  | mk data =>
    show (decodeURIChars data).map _ = _
    rw [decodeURIChars_no_percent data h]
    rfl

/-- C5: the email-verification gate performs exactly the claimed case
analysis — no principal → 401 without consulting user state; lookup
failure → 500; missing record → 404; `emailVerified` unset → 403 with the
fixed message; verified → proceed to `next()`. The embedded middleware
coincides with the case analysis written from the claim on every input. -/
theorem claim5_gate_case_analysis (userId : Option String)
    (lookup : LookupResult) :
    emailVerificationMiddleware userId lookup
      = gateSpecCaseAnalysis userId lookup := by
  cases userId with
  | none => rfl
  | some uid =>
    by_cases he : uid = ""
    · subst he
      rfl
    · have he' : (uid == "") = false := beq_eq_false_iff_ne.mpr he
      cases lookup with
      | err =>
        simp [emailVerificationMiddleware, gateSpecCaseAnalysis, he']
      | ok u =>
        cases u with
        | none =>
          simp [emailVerificationMiddleware, gateSpecCaseAnalysis, he']
        | some user =>
          cases h : user.emailVerified with
          | none =>
            simp [emailVerificationMiddleware, gateSpecCaseAnalysis, he', h]
          | some t =>
            simp [emailVerificationMiddleware, gateSpecCaseAnalysis, he', h]

/-- C7: `generateTempToken(payload)` at time `now` returns the hex of the
fresh random bytes, maps that token to exactly `{payload, expiresAt =
now + 15 minutes}` in the pending store, and schedules the automatic
purge of the entry at `expiresAt`. -/
theorem claim7_issue (data : JsVal) (now : Nat) (rb : List Nat)
    (s : TokenState) :
    (generateTempToken data now rb s).1 = bytesToHex rb ∧
    mapGet (generateTempToken data now rb s).2.tempTokenStore
      (bytesToHex rb) = some ⟨data, now + TOKEN_EXPIRY⟩ ∧
    TOKEN_EXPIRY = 15 * 60 * 1000 ∧
    Timer.purgePending (bytesToHex rb) (now + TOKEN_EXPIRY)
      ∈ (generateTempToken data now rb s).2.timers := by
  refine ⟨rfl, ?_, rfl, ?_⟩
  · simp [generateTempToken, mapGet_mapSet_self]
  · simp [generateTempToken]

/-- C8: `exchangeTempToken` is a total function of its input string and
store state, and every outcome is a regular return value: `null`, or the
data of the pending entry, or the data of the consumed-cache entry —
never an exception (no partial operation occurs in its body). -/
theorem claim8_never_throws (tok : String) (now : Nat) (s : TokenState) :
    (exchangeTempToken tok now s).1 = JsVal.vNull ∨
    (∃ entry, mapGet s.tempTokenStore tok = some entry ∧
      (exchangeTempToken tok now s).1 = entry.data) ∨
    (∃ centry, mapGet s.consumedTokens tok = some centry ∧
      (exchangeTempToken tok now s).1 = centry.data) := by
  cases hget : mapGet s.tempTokenStore tok with
  | none =>
    cases hcons : mapGet s.consumedTokens tok with
    | none =>
      left
      simp [exchangeTempToken, hget, hcons]
    | some c =>
      by_cases hlt : now - c.consumedAt < CONSUMED_TOKEN_RETENTION
      · right; right
        exact ⟨c, rfl, by simp [exchangeTempToken, hget, hcons, hlt]⟩
      · left
        simp [exchangeTempToken, hget, hcons, hlt]
  | some stored =>
    by_cases hexp : stored.expiresAt < now
    · left
      simp [exchangeTempToken, hget, hexp]
    · right; left
      exact ⟨stored, rfl, by simp [exchangeTempToken, hget, hexp]⟩

/-- C9: with the falsy payload `null`, a token validly issued and
redeemed while fresh produces, at the exchange endpoint, the identical
400 error envelope as a never-issued token — "issued but valueless" is
indistinguishable from "not found". -/
theorem claim9_falsy_payload_not_found :
    (oauthExchangeRoute (some "deadbeef") 10
        ⟨[("deadbeef", ⟨JsVal.vNull, 1000⟩)], [], []⟩).1
      = (oauthExchangeRoute (some "cafebabe") 10 initialTokenState).1 ∧
    (oauthExchangeRoute (some "deadbeef") 10
        ⟨[("deadbeef", ⟨JsVal.vNull, 1000⟩)], [], []⟩).1
      = ExchangeResponse.error 400 400 "Authentication code expired or invalid. The server may have restarted. Please try logging in again." := by
  constructor <;> rfl

/-- C10: every token produced by `generateTempToken` — the hex encoding
of 32 random bytes — is a 64-character string over `[0-9a-f]`,
`encodeURIComponent` is the identity on it, and the exchange route's
defensive `decodeURIComponent` leaves it unchanged. -/
theorem claim10_token_hex_url_safe (rb : List Nat) (hlen : rb.length = 32)
    (hb : ∀ b ∈ rb, b < 256) :
    (bytesToHex rb).length = 64 ∧
    (∀ c ∈ (bytesToHex rb).data, c ∈ ("0123456789abcdef").data) ∧
    encodeURIComponent (bytesToHex rb) = bytesToHex rb ∧
    decodeURIComponent (bytesToHex rb) = some (bytesToHex rb) ∧
    routeDecodedCode (bytesToHex rb) = bytesToHex rb := by
  have hmem := bytesToHex_mem_hex rb hb
  have hhexof : ∀ c ∈ (bytesToHex rb).data, ∃ n, n < 16 ∧ c = hexDigitLower n := by
    intro c hc
    rw [bytesToHex_data_eq] at hc
    obtain ⟨b, hbmem, hcmem⟩ := List.mem_flatMap.mp hc
    have hb256 := hb b hbmem
    simp only [List.mem_cons, List.not_mem_nil, or_false] at hcmem
    rcases hcmem with rfl | rfl
    · exact ⟨b / 16, by omega, rfl⟩
    · exact ⟨b % 16, Nat.mod_lt _ (by omega), rfl⟩
  have hdec : decodeURIComponent (bytesToHex rb) = some (bytesToHex rb) := by
    refine decodeURIComponent_no_percent _ (fun c hc => ?_)
    obtain ⟨n, hn, rfl⟩ := hhexof c hc
    exact hexDigitLower_ne_percent n hn
  refine ⟨?_, hmem, ?_, hdec, ?_⟩
  · rw [bytesToHex_length, hlen]
  · refine encodeURIComponent_of_unreserved _ (fun c hc => ?_)
    obtain ⟨n, hn, rfl⟩ := hhexof c hc
    exact hexDigitLower_unreserved n hn
  · rw [routeDecodedCode, hdec]
    simp

theorem claim10_token_hex_url_safe_witness :
    (List.replicate 32 171).length = 32 ∧
    (∀ b ∈ List.replicate 32 171, b < 256) ∧
    ((bytesToHex (List.replicate 32 171)).length = 64 ∧
      (∀ c ∈ (bytesToHex (List.replicate 32 171)).data,
        c ∈ ("0123456789abcdef").data) ∧
      encodeURIComponent (bytesToHex (List.replicate 32 171))
        = bytesToHex (List.replicate 32 171) ∧
      decodeURIComponent (bytesToHex (List.replicate 32 171))
        = some (bytesToHex (List.replicate 32 171)) ∧
      routeDecodedCode (bytesToHex (List.replicate 32 171))
        = bytesToHex (List.replicate 32 171)) :=
  ⟨by decide, by decide,
    claim10_token_hex_url_safe _ (by decide) (by decide)⟩

end Locafy
